import Mathlib

/-!
Verification development for the structure-file ingestion and validation
pipeline of a browser-based molecular visualization front end
(src/js/upload.js).  JavaScript strings are modelled as lists of
characters, JS `Set` objects as finite sets, and the DOM-free core of
each method of `ProteinUploader` as a pure Lean function.
-/

namespace Wbe

/-- Characters removed by the JavaScript `String.prototype.trim`
(restricted to the ASCII whitespace characters relevant here). -/
def jsWhitespace (c : Char) : Bool :=
  c = ' ' || c = '\t' || c = '\n' || c = '\r' || c = '\x0b' || c = '\x0c'

/-- Remove leading whitespace from a character list. -/
def trimLeadWS : List Char → List Char
  | [] => []
  | c :: cs => if jsWhitespace c then trimLeadWS cs else c :: cs

/-- Model of the JavaScript `trim()`: remove leading and trailing
whitespace. -/
def jsTrim (s : List Char) : List Char :=
  trimLeadWS (trimLeadWS s.reverse).reverse

/-- Model of the JavaScript `s.startsWith(kw)`: the second argument is
the keyword, tested as a case-sensitive literal front segment of `s`. -/
def startsWithL : List Char → List Char → Bool
  | _, [] => true
  | [], _ :: _ => false
  | c :: cs, k :: ks => c = k && startsWithL cs ks

/-- Model of the JavaScript `s.substring(a, b)` for `a ≤ b`: the
characters at indices `a` (inclusive) to `b` (exclusive), clamped to the
length of `s`. -/
def jsSubstring (s : List Char) (a b : Nat) : List Char :=
  (s.drop a).take (b - a)

/-- Model of the JavaScript `s.split(sep)` for a one-character
separator: splitting the empty string yields one empty field, and every
separator occurrence starts a new field. -/
def splitOnChar (sep : Char) : List Char → List (List Char)
  | [] => [[]]
  | c :: cs =>
    if c = sep then [] :: splitOnChar sep cs
    else
      match splitOnChar sep cs with
      | [] => [[c]]
      | l :: ls => (c :: l) :: ls

/-- `content.split('\n')` from `validateStructure`. -/
def splitLines (content : List Char) : List (List Char) :=
  splitOnChar '\n' content

/-- The coordinate-record keyword `'ATOM'`. -/
def kwATOM : List Char := ['A', 'T', 'O', 'M']

/-- The heteroatom-record keyword `'HETATM'`. -/
def kwHETATM : List Char := ['H', 'E', 'T', 'A', 'T', 'M']

/-- Decimal digit character for `d < 10`. -/
def digitChar (d : Nat) : Char := Char.ofNat (48 + d)

/-- Fuel-driven decimal rendering: with fuel at least `n + 1` this is
the usual most-significant-digit-first decimal numeral of `n`. -/
def natToDecAux : Nat → Nat → List Char
  | 0, _ => []
  | fuel + 1, n =>
    if n < 10 then [digitChar n]
    else natToDecAux fuel (n / 10) ++ [digitChar (n % 10)]

/-- Decimal numeral of a natural number, as produced by JavaScript
template interpolation of an integer value. -/
def natToDec (n : Nat) : List Char := natToDecAux (n + 1) n

/-- Numeric value of a digit string (left fold over decimal digits);
used to prove that `natToDec` is injective. -/
def decVal (l : List Char) : Nat :=
  l.foldl (fun a c => a * 10 + (c.toNat - 48)) 0

/-- The warning message `Line ${i+1}: ATOM record may be incomplete`
pushed by `validateStructure`, for 1-based line number `n`. -/
def warnMsg (n : Nat) : List Char :=
  ("Line ".data) ++ natToDec n ++ (": ATOM record may be incomplete".data)

/-- The error message pushed when no line matched either keyword. -/
def noAtomRecordsMsg : List Char := "No ATOM records found in file".data

/-- The error message pushed when both atom counters are zero. -/
def noCoordsMsg : List Char := "No atomic coordinates found".data

/-- Mutable state of the scan loop of `validateStructure`: the
`hasAtomRecords` flag, the counters and accumulating `Set`s of
`validation.info`, and the warnings pushed so far. -/
structure ScanState where
  hasAtomRecords : Bool
  atoms : Nat
  hetAtoms : Nat
  chains : Finset (List Char)
  residues : Finset (List Char)
  warnings : List (List Char)
deriving DecidableEq

/-- Initial scan state of `validateStructure`. -/
def initState : ScanState :=
  { hasAtomRecords := false, atoms := 0, hetAtoms := 0,
    chains := ∅, residues := ∅, warnings := [] }

/-- The `line.length >= 22` block of `validateStructure`: extract the
chain identifier, residue name and residue number from the (already
trimmed) line and accumulate them into the chain and residue sets. -/
def extractBlock (line : List Char) (s : ScanState) : ScanState :=
  if 22 ≤ line.length then
    let chain := jsTrim (jsSubstring line 21 22)
    let resName := jsTrim (jsSubstring line 17 20)
    let resNum := jsTrim (jsSubstring line 22 26)
    let s1 := if chain ≠ [] then { s with chains := insert chain s.chains } else s
    if resName ≠ [] ∧ resNum ≠ [] then
      { s1 with residues := insert (resName ++ resNum ++ chain) s1.residues }
    else s1
  else s

/-- The `startsWith('ATOM') || startsWith('HETATM')` block of
`validateStructure`: set the flag, bump the matching counter, and run
the extraction block. -/
def coordBlock (line : List Char) (s : ScanState) : ScanState :=
  if startsWithL line kwATOM || startsWithL line kwHETATM then
    extractBlock line
      (if startsWithL line kwATOM then
        { s with hasAtomRecords := true, atoms := s.atoms + 1 }
      else
        { s with hasAtomRecords := true, hetAtoms := s.hetAtoms + 1 })
  else s

/-- The `line.startsWith('ATOM') && line.length < 78` check of
`validateStructure`, pushing an incompleteness warning for the 0-based
line index `i`. -/
def warnBlock (i : Nat) (line : List Char) (s : ScanState) : ScanState :=
  if startsWithL line kwATOM && decide (line.length < 78) then
    { s with warnings := s.warnings ++ [warnMsg (i + 1)] }
  else s

/-- One iteration of the scan loop of `validateStructure` on the raw
line `raw` at 0-based index `i`: the line is trimmed once and both
blocks run in source order. -/
def scanLine (i : Nat) (raw : List Char) (s : ScanState) : ScanState :=
  warnBlock i (jsTrim raw) (coordBlock (jsTrim raw) s)

/-- The scan loop of `validateStructure` over the remaining lines,
starting at 0-based index `i`. -/
def runLines (i : Nat) : List (List Char) → ScanState → ScanState
  | [], s => s
  | l :: ls, s => runLines (i + 1) ls (scanLine i l s)

/-- Full scan of `validateStructure` over the split lines of the
content. -/
def runScan (content : List Char) : ScanState :=
  runLines 0 (splitLines content) initState

/-- The `validation.info` object.  The fields are optional because the
non-text passthrough branch of `processFile` attaches the empty object
`{}`, whose properties are absent. -/
structure VInfo where
  atoms : Option Nat
  chains : Option Nat
  residues : Option Nat
  hetAtoms : Option Nat
deriving DecidableEq

/-- The validation report produced by `validateStructure` (and, for the
passthrough format, synthesized by `processFile`). -/
structure Validation where
  isValid : Bool
  errors : List (List Char)
  warnings : List (List Char)
  info : VInfo
deriving DecidableEq

/-- `validateStructure(content, filename)` from src/js/upload.js: scan
the lines, then apply the two trailing error checks and convert the
chain and residue sets to their sizes. -/
def validateStructure (content : List Char) : Validation :=
  let st := runScan content
  let errs1 : List (List Char) := if st.hasAtomRecords then [] else [noAtomRecordsMsg]
  let valid1 : Bool := st.hasAtomRecords
  let noCoords : Bool := decide (st.atoms = 0) && decide (st.hetAtoms = 0)
  let errs2 := if noCoords then errs1 ++ [noCoordsMsg] else errs1
  let valid2 := if noCoords then false else valid1
  { isValid := valid2, errors := errs2, warnings := st.warnings,
    info := { atoms := some st.atoms, chains := some st.chains.card,
              residues := some st.residues.card, hetAtoms := some st.hetAtoms } }

/-- A raw line is counted as a plain coordinate record: its trimmed
content starts with `'ATOM'`. -/
def isAtomLine (raw : List Char) : Bool :=
  startsWithL (jsTrim raw) kwATOM

/-- A raw line is counted as a heteroatom record: its trimmed content
starts with `'HETATM'`. -/
def isHetLine (raw : List Char) : Bool :=
  startsWithL (jsTrim raw) kwHETATM

/-- A raw line matches either coordinate keyword. -/
def isCoordLine (raw : List Char) : Bool :=
  isAtomLine raw || isHetLine raw

/-- A raw line that triggers the incompleteness warning: trimmed content
starts with `'ATOM'` and the trimmed length is under 78. -/
def isShortAtom (raw : List Char) : Bool :=
  isAtomLine raw && decide ((jsTrim raw).length < 78)

/-- Chain identifier extracted from a trimmed line. -/
def chainOf (t : List Char) : List Char := jsTrim (jsSubstring t 21 22)

/-- Residue name extracted from a trimmed line. -/
def resNameOf (t : List Char) : List Char := jsTrim (jsSubstring t 17 20)

/-- Residue sequence number extracted from a trimmed line. -/
def resNumOf (t : List Char) : List Char := jsTrim (jsSubstring t 22 26)

/-- The chain identifier contributed by a raw line to the chain set, if
any: the line must match a keyword, its trimmed length must reach 22,
and the extracted identifier must be non-empty. -/
def chainKey (raw : List Char) : Option (List Char) :=
  let t := jsTrim raw
  if isCoordLine raw ∧ 22 ≤ t.length ∧ chainOf t ≠ [] then some (chainOf t)
  else none

/-- The concatenated residue key contributed by a raw line to the
residue set, if any: `resName ++ resNum ++ chain` with name and number
non-empty. -/
def resKey (raw : List Char) : Option (List Char) :=
  let t := jsTrim raw
  if isCoordLine raw ∧ 22 ≤ t.length ∧ resNameOf t ≠ [] ∧ resNumOf t ≠ [] then
    some (resNameOf t ++ resNumOf t ++ chainOf t)
  else none

/-- The residue triple observed on a raw line, following the wording of
the specification: the distinct components (residue name, residue
number, chain) before any concatenation.  Used to compare the
specified residue count with the implemented one. -/
def specTripleOf (raw : List Char) : Option (List Char × List Char × List Char) :=
  let t := jsTrim raw
  if isCoordLine raw ∧ 22 ≤ t.length ∧ resNameOf t ≠ [] ∧ resNumOf t ≠ [] then
    some (resNameOf t, resNumOf t, chainOf t)
  else none

/-- Insert an optional key into a finite set. -/
def insKey (k : Option (List Char)) (S : Finset (List Char)) : Finset (List Char) :=
  match k with
  | some c => insert c S
  | none => S

/-- The warnings contributed by the lines starting at 0-based index
`i`. -/
def warnList (i : Nat) : List (List Char) → List (List Char)
  | [] => []
  | l :: ls => (if isShortAtom l then [warnMsg (i + 1)] else []) ++ warnList (i + 1) ls

/-- A single heteroatom record line, used as a concrete valid input. -/
def hetOnly : List Char := kwHETATM

/-- A single coordinate line of raw length 78 whose trimmed content is
only the keyword. -/
def cx3 : List Char := kwATOM ++ List.replicate 74 ' '

/-- First coordinate line for the C4 counterexample: residue name
`ALA`, residue number `12`, chain `A`. -/
def lineA : List Char := "ATOM             ALA A12".data

/-- Second coordinate line for the C4 counterexample: residue name
`ALA`, residue number `12A`, empty chain. -/
def lineB : List Char := "ATOM             ALA  12A".data

/-- Two-line content whose two observed residue triples are distinct but
concatenate to the same key `ALA12A`. -/
def cx4 : List Char := lineA ++ '\n' :: lineB

/-- The line `lineA` duplicated over two lines. -/
def dupA : List Char := lineA ++ '\n' :: lineA

/-- A coordinate line with one leading space: raw length 22, trimmed
length 21, last character `Z` at raw position 21. -/
def cx5 : List Char := ' ' :: (kwATOM ++ List.replicate 16 'B' ++ ['Z'])

/-- Observable side effects of per-file ingestion: decoding the raw
file to text (`readFile`) and running the structure validator. -/
inductive IngestEvent where
  | decoded (name : List Char)
  | validated (name : List Char)
deriving DecidableEq

/-- A JavaScript value as used for file ids: a number or a string. -/
inductive JSVal where
  | num (q : ℚ)
  | str (s : List Char)
deriving DecidableEq

/-- JavaScript strict equality `===` on file-id values: values of
different types are never equal. -/
def jsStrictEq : JSVal → JSVal → Bool
  | .num a, .num b => decide (a = b)
  | .str a, .str b => decide (a = b)
  | _, _ => false

/-- Decimal digit test. -/
def isDigitCh (c : Char) : Bool :=
  decide (48 ≤ c.toNat) && decide (c.toNat ≤ 57)

/-- JavaScript `ToNumber` restricted to unsigned decimal numerals
(optionally with a fractional part), the shape produced by string
interpolation of the non-negative numeric ids used here; any other
string is treated as NaN (`none`). -/
def strToNumber (s : List Char) : Option ℚ :=
  match splitOnChar '.' s with
  | [w] => if w ≠ [] ∧ w.all isDigitCh then some ((decVal w : ℚ)) else none
  | [w, f] =>
    if w ++ f ≠ [] ∧ w.all isDigitCh ∧ f.all isDigitCh then
      some ((decVal w : ℚ) + (decVal f : ℚ) / (10 : ℚ) ^ f.length)
    else none
  | _ => none

/-- JavaScript loose equality `==` on file-id values: a number and a
string are compared by converting the string to a number. -/
def jsLooseEq : JSVal → JSVal → Bool
  | .num a, .num b => decide (a = b)
  | .str a, .str b => decide (a = b)
  | .num a, .str s =>
    match strToNumber s with
    | some v => decide (a = v)
    | none => false
  | .str s, .num b =>
    match strToNumber s with
    | some v => decide (v = b)
    | none => false

/-- A candidate file handed to `handleFiles`: name, byte size, and raw
content (already as text, since `readFile` reads as text). -/
structure Candidate where
  name : List Char
  size : Nat
  data : List Char
deriving DecidableEq

/-- The file object pushed onto `this.uploadedFiles` by `processFile`. -/
structure FileObj where
  id : JSVal
  name : List Char
  size : Nat
  ftype : List Char
  content : List Char
  validation : Validation
  uploadDate : Nat
  status : List Char
deriving DecidableEq

/-- `getFileExtension`: dot followed by the lower-cased last
dot-separated component of the filename. -/
def getFileExtension (name : List Char) : List Char :=
  '.' :: ((splitOnChar '.' name).getLastD []).map Char.toLower

/-- `getFileTypeFromExtension`: the display name of a format. -/
def getFileTypeFromExtension (ext : List Char) : List Char :=
  if ext = "pdb".data then "Protein Data Bank".data
  else if ext = "cif".data then "Crystallographic Information File".data
  else if ext = "mol2".data then "MOL2 Format".data
  else "Unknown".data

/-- `getFileType`: format display name from the filename. -/
def getFileType (name : List Char) : List Char :=
  getFileTypeFromExtension (((splitOnChar '.' name).getLastD []).map Char.toLower)

/-- The extension allow-list of `validateFile`. -/
def allowedTypes : List (List Char) :=
  [".pdb".data, ".cif".data, ".mol2".data, ".pdf".data]

/-- The 50 MiB size ceiling of `validateFile`. -/
def maxFileSize : Nat := 50 * 1024 * 1024

/-- `validateFile`: the two ingestion gates, extension first, then
size. -/
def validateFile (c : Candidate) : Bool :=
  if ¬(getFileExtension c.name ∈ allowedTypes) then false
  else if maxFileSize < c.size then false
  else true

/-- The non-text passthrough formats of `processFile`. -/
def passthroughExts : List (List Char) := [".pdf".data]

/-- `processFile`: a file is text-based when its extension is not a
passthrough format. -/
def isTextBased (name : List Char) : Bool :=
  !decide (getFileExtension name ∈ passthroughExts)

/-- The report `{ isValid: true, errors: [], warnings: [], info: {} }`
synthesized by `processFile` for the passthrough format: note the
`info` object is empty, so none of the four counts is present. -/
def trivialValidation : Validation :=
  { isValid := true, errors := [], warnings := [],
    info := { atoms := none, chains := none, residues := none, hetAtoms := none } }

/-- The file object built by `processFile` for an accepted candidate,
given the freshly generated numeric id (`Date.now() + Math.random()`)
and the upload timestamp. -/
def ingestRecord (fid : ℚ) (now : Nat) (c : Candidate) : FileObj :=
  let validation :=
    if isTextBased c.name then validateStructure c.data else trivialValidation
  { id := JSVal.num fid, name := c.name, size := c.size,
    ftype := getFileType c.name, content := c.data, validation := validation,
    uploadDate := now,
    status := if validation.isValid then "valid".data else "warning".data }

/-- `processFile` on one accepted candidate: decode, validate (text
formats only), and append the record to the registry; the second
component records the decode/validate side effects. -/
def processFile (fid : ℚ) (now : Nat) (c : Candidate) (files : List FileObj) :
    List FileObj × List IngestEvent :=
  (files ++ [ingestRecord fid now c],
   IngestEvent.decoded c.name ::
     (if isTextBased c.name then [IngestEvent.validated c.name] else []))

/-- The per-file loop of `handleFiles` over already-gated candidates,
with id/time oracles indexed by processing order. -/
def processAll (ids : Nat → ℚ) (times : Nat → Nat) :
    Nat → List Candidate → List FileObj → List FileObj × List IngestEvent
  | _, [], files => (files, [])
  | k, c :: cs, files =>
    let r := processFile (ids k) (times k) c files
    let rest := processAll ids times (k + 1) cs r.1
    (rest.1, r.2 ++ rest.2)

/-- `handleFiles`: gate every candidate with `validateFile`, then
process the accepted ones in order. -/
def handleFiles (ids : Nat → ℚ) (times : Nat → Nat) (cands : List Candidate)
    (files : List FileObj) : List FileObj × List IngestEvent :=
  processAll ids times 0 (cands.filter validateFile) files

/-- `removeFile`: keep the records whose id is NOT strictly equal
(`!==`) to the argument. -/
def removeFile (fileId : JSVal) (files : List FileObj) : List FileObj :=
  files.filter (fun f => !jsStrictEq f.id fileId)

/-- The lookup `uploadedFiles.find(f => f.id == fileId)` shared by
`previewFile` and `visualizeFile` (loose equality `==`). -/
def findFile (fileId : JSVal) (files : List FileObj) : Option FileObj :=
  files.find? (fun f => jsLooseEq f.id fileId)

/-- A candidate file with the passthrough extension `.pdf`. -/
def pdfCand : Candidate := { name := "a.pdf".data, size := 3, data := "xyz".data }

/-- A candidate with a disallowed extension. -/
def txtCand : Candidate := { name := "a.txt".data, size := 3, data := [] }

/-- A candidate with an allowed extension but oversize. -/
def bigCand : Candidate := { name := "b.pdb".data, size := 52428801, data := [] }

/-- Constant id oracle. -/
def idsZero : Nat → ℚ := fun _ => 0

/-- Constant timestamp oracle. -/
def timesZero : Nat → Nat := fun _ => 0

/-- A small accepted `.pdb` candidate. -/
def pdbCand : Candidate := { name := "a.pdb".data, size := 3, data := [] }

/-- A one-record registry whose record has numeric id 1. -/
def regOne : List FileObj := [ingestRecord 1 0 pdbCand]

/-- A one-record registry whose record has numeric id 7. -/
def regSeven : List FileObj := [ingestRecord 7 0 pdbCand]

/-- The string rendering of the id 7. -/
def sevenStr : List Char := ['7']

lemma decVal_append_singleton (xs : List Char) (c : Char) :
    decVal (xs ++ [c]) = decVal xs * 10 + (c.toNat - 48) := by
  simp [decVal, List.foldl_append]

lemma digitChar_toNat {d : Nat} (h : d < 10) : (digitChar d).toNat = 48 + d := by
  interval_cases d <;> decide

lemma decVal_natToDecAux : ∀ fuel n, n < fuel → decVal (natToDecAux fuel n) = n := by
  intro fuel
  induction fuel with
  | zero => intro n h; omega
  | succ f ih =>
    intro n h
    unfold natToDecAux
    by_cases h10 : n < 10
    · simp only [h10, if_true]
      simp [decVal, digitChar_toNat h10]
    · simp only [h10, if_false]
      rw [decVal_append_singleton, ih (n / 10) (by omega),
        digitChar_toNat (Nat.mod_lt n (by omega))]
      omega

lemma decVal_natToDec (n : Nat) : decVal (natToDec n) = n :=
  decVal_natToDecAux (n + 1) n (Nat.lt_succ_self n)

lemma natToDec_inj {a b : Nat} (h : natToDec a = natToDec b) : a = b := by
  have := congrArg decVal h
  rwa [decVal_natToDec, decVal_natToDec] at this

lemma warnMsg_inj {a b : Nat} (h : warnMsg a = warnMsg b) : a = b := by
  unfold warnMsg at h
  exact natToDec_inj (List.append_cancel_left (List.append_cancel_right h))

lemma not_atom_and_het (t : List Char) :
    ¬(startsWithL t kwATOM = true ∧ startsWithL t kwHETATM = true) := by
  rintro ⟨hA, hH⟩
  cases t with
  | nil => simp [startsWithL, kwATOM] at hA
  | cons c cs =>
    simp [startsWithL, kwATOM, kwHETATM] at hA hH
    exact absurd (hA.1.symm.trans hH.1) (by decide)

lemma extractBlock_hasAtomRecords (line : List Char) (s : ScanState) :
    (extractBlock line s).hasAtomRecords = s.hasAtomRecords := by
  simp only [extractBlock]
  repeat' split
  all_goals rfl

lemma extractBlock_atoms (line : List Char) (s : ScanState) :
    (extractBlock line s).atoms = s.atoms := by
  simp only [extractBlock]
  repeat' split
  all_goals rfl

lemma extractBlock_hetAtoms (line : List Char) (s : ScanState) :
    (extractBlock line s).hetAtoms = s.hetAtoms := by
  simp only [extractBlock]
  repeat' split
  all_goals rfl

lemma extractBlock_warnings (line : List Char) (s : ScanState) :
    (extractBlock line s).warnings = s.warnings := by
  simp only [extractBlock]
  repeat' split
  all_goals rfl

lemma extractBlock_chains (line : List Char) (s : ScanState) :
    (extractBlock line s).chains =
      if 22 ≤ line.length ∧ chainOf line ≠ [] then insert (chainOf line) s.chains
      else s.chains := by
  simp only [extractBlock, chainOf]
  by_cases h22 : 22 ≤ line.length
  · by_cases hc : jsTrim (jsSubstring line 21 22) ≠ [] <;>
      by_cases hr : jsTrim (jsSubstring line 17 20) ≠ [] ∧ jsTrim (jsSubstring line 22 26) ≠ [] <;>
      simp [h22, hc, hr]
  · simp [h22]

lemma extractBlock_residues (line : List Char) (s : ScanState) :
    (extractBlock line s).residues =
      if 22 ≤ line.length ∧ resNameOf line ≠ [] ∧ resNumOf line ≠ [] then
        insert (resNameOf line ++ resNumOf line ++ chainOf line) s.residues
      else s.residues := by
  simp only [extractBlock, chainOf, resNameOf, resNumOf]
  by_cases h22 : 22 ≤ line.length
  · by_cases hc : jsTrim (jsSubstring line 21 22) ≠ [] <;>
      by_cases hr : jsTrim (jsSubstring line 17 20) ≠ [] ∧ jsTrim (jsSubstring line 22 26) ≠ [] <;>
      simp [h22, hc, hr]
  · simp [h22]

lemma coordBlock_atoms (line : List Char) (s : ScanState) :
    (coordBlock line s).atoms = s.atoms + (if startsWithL line kwATOM then 1 else 0) := by
  unfold coordBlock
  by_cases hA : startsWithL line kwATOM = true
  · simp [hA, extractBlock_atoms]
  · by_cases hH : startsWithL line kwHETATM = true
    · simp [hA, hH, extractBlock_atoms]
    · simp [hA, hH]

lemma coordBlock_hetAtoms (line : List Char) (s : ScanState) :
    (coordBlock line s).hetAtoms = s.hetAtoms + (if startsWithL line kwHETATM then 1 else 0) := by
  unfold coordBlock
  by_cases hA : startsWithL line kwATOM = true
  · have hH : ¬ startsWithL line kwHETATM = true := fun hH => not_atom_and_het line ⟨hA, hH⟩
    simp [hA, hH, extractBlock_hetAtoms]
  · by_cases hH : startsWithL line kwHETATM = true
    · simp [hA, hH, extractBlock_hetAtoms]
    · simp [hA, hH]

lemma coordBlock_hasAtomRecords (line : List Char) (s : ScanState) :
    (coordBlock line s).hasAtomRecords =
      (s.hasAtomRecords || (startsWithL line kwATOM || startsWithL line kwHETATM)) := by
  unfold coordBlock
  by_cases hA : startsWithL line kwATOM = true
  · simp [hA, extractBlock_hasAtomRecords]
  · by_cases hH : startsWithL line kwHETATM = true
    · simp [hA, hH, extractBlock_hasAtomRecords]
    · simp [hA, hH]

lemma coordBlock_warnings (line : List Char) (s : ScanState) :
    (coordBlock line s).warnings = s.warnings := by
  unfold coordBlock
  by_cases hA : startsWithL line kwATOM = true
  · simp [hA, extractBlock_warnings]
  · by_cases hH : startsWithL line kwHETATM = true
    · simp [hA, hH, extractBlock_warnings]
    · simp [hA, hH]

lemma coordBlock_chains (line : List Char) (s : ScanState) :
    (coordBlock line s).chains =
      if (startsWithL line kwATOM || startsWithL line kwHETATM) = true ∧
          22 ≤ line.length ∧ chainOf line ≠ [] then
        insert (chainOf line) s.chains
      else s.chains := by
  unfold coordBlock
  by_cases hC : (startsWithL line kwATOM || startsWithL line kwHETATM) = true
  · simp only [hC, if_true, true_and]
    rcases Bool.or_eq_true _ _ |>.mp hC with hA | hH
    · simp [hA, extractBlock_chains]
    · have hA : ¬ startsWithL line kwATOM = true := fun hA => not_atom_and_het line ⟨hA, hH⟩
      simp [hA, extractBlock_chains]
  · simp [hC]

lemma coordBlock_residues (line : List Char) (s : ScanState) :
    (coordBlock line s).residues =
      if (startsWithL line kwATOM || startsWithL line kwHETATM) = true ∧
          22 ≤ line.length ∧ resNameOf line ≠ [] ∧ resNumOf line ≠ [] then
        insert (resNameOf line ++ resNumOf line ++ chainOf line) s.residues
      else s.residues := by
  unfold coordBlock
  by_cases hC : (startsWithL line kwATOM || startsWithL line kwHETATM) = true
  · simp only [hC, if_true, true_and]
    rcases Bool.or_eq_true _ _ |>.mp hC with hA | hH
    · simp [hA, extractBlock_residues]
    · have hA : ¬ startsWithL line kwATOM = true := fun hA => not_atom_and_het line ⟨hA, hH⟩
      simp [hA, extractBlock_residues]
  · simp [hC]

lemma warnBlock_fields (i : Nat) (line : List Char) (s : ScanState) :
    (warnBlock i line s).atoms = s.atoms ∧
    (warnBlock i line s).hetAtoms = s.hetAtoms ∧
    (warnBlock i line s).hasAtomRecords = s.hasAtomRecords ∧
    (warnBlock i line s).chains = s.chains ∧
    (warnBlock i line s).residues = s.residues := by
  unfold warnBlock
  split <;> exact ⟨rfl, rfl, rfl, rfl, rfl⟩

lemma warnBlock_warnings (i : Nat) (line : List Char) (s : ScanState) :
    (warnBlock i line s).warnings =
      s.warnings ++
        (if (startsWithL line kwATOM && decide (line.length < 78)) = true then
          [warnMsg (i + 1)] else []) := by
  unfold warnBlock
  split <;> simp_all


lemma scanLine_atoms (i : Nat) (raw : List Char) (s : ScanState) :
    (scanLine i raw s).atoms = s.atoms + (if isAtomLine raw then 1 else 0) := by
  unfold scanLine isAtomLine
  rw [(warnBlock_fields i (jsTrim raw) _).1, coordBlock_atoms]

lemma scanLine_hetAtoms (i : Nat) (raw : List Char) (s : ScanState) :
    (scanLine i raw s).hetAtoms = s.hetAtoms + (if isHetLine raw then 1 else 0) := by
  unfold scanLine isHetLine
  rw [(warnBlock_fields i (jsTrim raw) _).2.1, coordBlock_hetAtoms]

lemma scanLine_hasAtomRecords (i : Nat) (raw : List Char) (s : ScanState) :
    (scanLine i raw s).hasAtomRecords = (s.hasAtomRecords || isCoordLine raw) := by
  unfold scanLine isCoordLine isAtomLine isHetLine
  rw [(warnBlock_fields i (jsTrim raw) _).2.2.1, coordBlock_hasAtomRecords]

lemma scanLine_chains (i : Nat) (raw : List Char) (s : ScanState) :
    (scanLine i raw s).chains = insKey (chainKey raw) s.chains := by
  unfold scanLine
  rw [(warnBlock_fields i (jsTrim raw) _).2.2.2.1, coordBlock_chains]
  simp only [chainKey, isCoordLine, isAtomLine, isHetLine]
  by_cases h : (startsWithL (jsTrim raw) kwATOM || startsWithL (jsTrim raw) kwHETATM) = true ∧
      22 ≤ (jsTrim raw).length ∧ chainOf (jsTrim raw) ≠ []
  · rw [if_pos h, if_pos h]
    rfl
  · rw [if_neg h, if_neg h]
    rfl

lemma scanLine_residues (i : Nat) (raw : List Char) (s : ScanState) :
    (scanLine i raw s).residues = insKey (resKey raw) s.residues := by
  unfold scanLine
  rw [(warnBlock_fields i (jsTrim raw) _).2.2.2.2, coordBlock_residues]
  simp only [resKey, isCoordLine, isAtomLine, isHetLine]
  by_cases h : (startsWithL (jsTrim raw) kwATOM || startsWithL (jsTrim raw) kwHETATM) = true ∧
      22 ≤ (jsTrim raw).length ∧ resNameOf (jsTrim raw) ≠ [] ∧ resNumOf (jsTrim raw) ≠ []
  · rw [if_pos h, if_pos h]
    rfl
  · rw [if_neg h, if_neg h]
    rfl

lemma scanLine_warnings (i : Nat) (raw : List Char) (s : ScanState) :
    (scanLine i raw s).warnings =
      s.warnings ++ (if isShortAtom raw then [warnMsg (i + 1)] else []) := by
  unfold scanLine isShortAtom isAtomLine
  rw [warnBlock_warnings, coordBlock_warnings]

lemma runLines_atoms : ∀ (ls : List (List Char)) (i : Nat) (s : ScanState),
    (runLines i ls s).atoms = s.atoms + ls.countP isAtomLine := by
  intro ls
  induction ls with
  | nil => intro i s; simp [runLines]
  | cons l ls ih =>
    intro i s
    rw [runLines, ih, scanLine_atoms, List.countP_cons]
    by_cases h : isAtomLine l <;> simp [h] <;> omega

lemma runLines_hetAtoms : ∀ (ls : List (List Char)) (i : Nat) (s : ScanState),
    (runLines i ls s).hetAtoms = s.hetAtoms + ls.countP isHetLine := by
  intro ls
  induction ls with
  | nil => intro i s; simp [runLines]
  | cons l ls ih =>
    intro i s
    rw [runLines, ih, scanLine_hetAtoms, List.countP_cons]
    by_cases h : isHetLine l <;> simp [h] <;> omega

lemma runLines_hasAtomRecords : ∀ (ls : List (List Char)) (i : Nat) (s : ScanState),
    (runLines i ls s).hasAtomRecords = (s.hasAtomRecords || ls.any isCoordLine) := by
  intro ls
  induction ls with
  | nil => intro i s; simp [runLines]
  | cons l ls ih =>
    intro i s
    rw [runLines, ih, scanLine_hasAtomRecords, List.any_cons, Bool.or_assoc]

lemma runLines_chains : ∀ (ls : List (List Char)) (i : Nat) (s : ScanState),
    (runLines i ls s).chains = s.chains ∪ (ls.filterMap chainKey).toFinset := by
  intro ls
  induction ls with
  | nil => intro i s; simp [runLines]
  | cons l ls ih =>
    intro i s
    rw [runLines, ih, scanLine_chains, List.filterMap_cons]
    cases h : chainKey l with
    | none => simp [insKey]
    | some c =>
      simp only [insKey, List.toFinset_cons]
      rw [Finset.insert_union, Finset.union_insert]

lemma runLines_residues : ∀ (ls : List (List Char)) (i : Nat) (s : ScanState),
    (runLines i ls s).residues = s.residues ∪ (ls.filterMap resKey).toFinset := by
  intro ls
  induction ls with
  | nil => intro i s; simp [runLines]
  | cons l ls ih =>
    intro i s
    rw [runLines, ih, scanLine_residues, List.filterMap_cons]
    cases h : resKey l with
    | none => simp [insKey]
    | some c =>
      simp only [insKey, List.toFinset_cons]
      rw [Finset.insert_union, Finset.union_insert]

lemma runLines_warnings : ∀ (ls : List (List Char)) (i : Nat) (s : ScanState),
    (runLines i ls s).warnings = s.warnings ++ warnList i ls := by
  intro ls
  induction ls with
  | nil => intro i s; simp [runLines, warnList]
  | cons l ls ih =>
    intro i s
    rw [runLines, ih, scanLine_warnings, warnList, List.append_assoc]

lemma validateStructure_info (content : List Char) :
    (validateStructure content).info =
      { atoms := some (runScan content).atoms,
        chains := some (runScan content).chains.card,
        residues := some (runScan content).residues.card,
        hetAtoms := some (runScan content).hetAtoms } := rfl

lemma runScan_atoms (content : List Char) :
    (runScan content).atoms = (splitLines content).countP isAtomLine := by
  unfold runScan
  rw [runLines_atoms]
  simp [initState]

lemma runScan_hetAtoms (content : List Char) :
    (runScan content).hetAtoms = (splitLines content).countP isHetLine := by
  unfold runScan
  rw [runLines_hetAtoms]
  simp [initState]

lemma runScan_hasAtomRecords (content : List Char) :
    (runScan content).hasAtomRecords = (splitLines content).any isCoordLine := by
  unfold runScan
  rw [runLines_hasAtomRecords]
  simp [initState]

lemma runScan_chains (content : List Char) :
    (runScan content).chains = ((splitLines content).filterMap chainKey).toFinset := by
  unfold runScan
  rw [runLines_chains]
  simp [initState]

lemma runScan_residues (content : List Char) :
    (runScan content).residues = ((splitLines content).filterMap resKey).toFinset := by
  unfold runScan
  rw [runLines_residues]
  simp [initState]

lemma validateStructure_warnings (content : List Char) :
    (validateStructure content).warnings = warnList 0 (splitLines content) := by
  have h : (validateStructure content).warnings = (runScan content).warnings := rfl
  rw [h]
  unfold runScan
  rw [runLines_warnings]
  simp [initState]

lemma atom_coord (raw : List Char) (h : isAtomLine raw = true) : isCoordLine raw = true := by
  simp [isCoordLine, h]

lemma het_coord (raw : List Char) (h : isHetLine raw = true) : isCoordLine raw = true := by
  simp [isCoordLine, h]

lemma any_coord_of_countP (ls : List (List Char))
    (h : 0 < ls.countP isAtomLine + ls.countP isHetLine) : ls.any isCoordLine = true := by
  have hd : ls.countP isAtomLine ≠ 0 ∨ ls.countP isHetLine ≠ 0 := by omega
  rcases hd with hA | hH
  · obtain ⟨l, hl, hp⟩ := List.countP_pos_iff.mp (Nat.pos_of_ne_zero hA)
    exact List.any_eq_true.mpr ⟨l, hl, atom_coord l hp⟩
  · obtain ⟨l, hl, hp⟩ := List.countP_pos_iff.mp (Nat.pos_of_ne_zero hH)
    exact List.any_eq_true.mpr ⟨l, hl, het_coord l hp⟩

lemma validateStructure_isValid (content : List Char) :
    (validateStructure content).isValid =
      (!(decide ((runScan content).atoms = 0) && decide ((runScan content).hetAtoms = 0)) &&
        (runScan content).hasAtomRecords) := by
  simp only [validateStructure]
  cases hd : (decide ((runScan content).atoms = 0) && decide ((runScan content).hetAtoms = 0)) <;>
    simp [hd]

lemma validateStructure_isValid_false_iff (content : List Char) :
    ((validateStructure content).isValid = false) ↔
      ((splitLines content).countP isAtomLine + (splitLines content).countP isHetLine = 0) := by
  rw [validateStructure_isValid, runScan_atoms, runScan_hetAtoms, runScan_hasAtomRecords]
  by_cases h0 : (splitLines content).countP isAtomLine + (splitLines content).countP isHetLine = 0
  · have ha : (splitLines content).countP isAtomLine = 0 := by omega
    have hb : (splitLines content).countP isHetLine = 0 := by omega
    simp [ha, hb, h0]
  · have hany := any_coord_of_countP _ (Nat.pos_of_ne_zero h0)
    constructor
    · intro hc
      by_cases ha : (splitLines content).countP isAtomLine = 0
      · by_cases hb : (splitLines content).countP isHetLine = 0
        · omega
        · exfalso
          simp [ha, hb, hany] at hc
      · exfalso
        simp [ha, hany] at hc
    · intro hc
      exact absurd hc h0

lemma validateStructure_errors (content : List Char) :
    (validateStructure content).errors =
      (if (splitLines content).any isCoordLine then ([] : List (List Char))
        else [noAtomRecordsMsg]) ++
      (if (splitLines content).countP isAtomLine + (splitLines content).countP isHetLine = 0 then
        [noCoordsMsg] else []) := by
  have h : (validateStructure content).errors =
      (if (runScan content).hasAtomRecords then ([] : List (List Char)) else [noAtomRecordsMsg]) ++
      (if (decide ((runScan content).atoms = 0) && decide ((runScan content).hetAtoms = 0)) = true
        then [noCoordsMsg] else []) := by
    simp only [validateStructure]
    cases hd : (decide ((runScan content).atoms = 0) && decide ((runScan content).hetAtoms = 0)) <;>
      cases hr : (runScan content).hasAtomRecords <;> simp [hd, hr]
  rw [h, runScan_hasAtomRecords, runScan_atoms, runScan_hetAtoms]
  by_cases h0 : (splitLines content).countP isAtomLine + (splitLines content).countP isHetLine = 0
  · have ha : (splitLines content).countP isAtomLine = 0 := by omega
    have hb : (splitLines content).countP isHetLine = 0 := by omega
    simp [ha, hb, h0]
  · have ha : ¬((splitLines content).countP isAtomLine = 0 ∧
        (splitLines content).countP isHetLine = 0) := by omega
    have hd : (decide ((splitLines content).countP isAtomLine = 0) &&
        decide ((splitLines content).countP isHetLine = 0)) = false := by
      simp only [Bool.and_eq_false_iff, decide_eq_false_iff_not]
      omega
    simp only [hd, h0, Bool.false_eq_true, if_false, List.append_nil]

lemma warnList_count_lt : ∀ (ls : List (List Char)) (i n : Nat), n < i →
    (warnList i ls).count (warnMsg (n + 1)) = 0 := by
  intro ls
  induction ls with
  | nil => intro i n _; simp [warnList]
  | cons l ls ih =>
    intro i n hn
    rw [warnList, List.count_append, ih (i + 1) n (by omega)]
    by_cases hs : isShortAtom l = true
    · have hne : warnMsg (i + 1) ≠ warnMsg (n + 1) := by
        intro he
        have := warnMsg_inj he
        omega
      simp [hs, List.count_cons, beq_iff_eq, Ne.symm hne]
    · simp [hs]

lemma warnList_count_main : ∀ (ls : List (List Char)) (i k : Nat),
    (warnList i ls).count (warnMsg (i + k + 1)) =
      if k < ls.length ∧ isShortAtom (ls.getD k []) = true then 1 else 0 := by
  intro ls
  induction ls with
  | nil => intro i k; simp [warnList]
  | cons l ls ih =>
    intro i k
    cases k with
    | zero =>
      rw [warnList, List.count_append, warnList_count_lt ls (i + 1) i (by omega)]
      by_cases hs : isShortAtom l = true <;> simp [hs]
    | succ k =>
      rw [warnList, List.count_append]
      have h1 : (if isShortAtom l = true then [warnMsg (i + 1)] else []).count
          (warnMsg (i + (k + 1) + 1)) = 0 := by
        by_cases hs : isShortAtom l = true
        · have hne : warnMsg (i + 1) ≠ warnMsg (i + (k + 1) + 1) := by
            intro he
            have := warnMsg_inj he
            omega
          simp [hs, List.count_cons, beq_iff_eq, Ne.symm hne]
        · simp [hs]
      have h2 : i + (k + 1) + 1 = (i + 1) + k + 1 := by omega
      rw [h1, h2, ih (i + 1) k]
      simp

lemma validateStructure_info_atoms (content : List Char) :
    (validateStructure content).info.atoms =
      some ((splitLines content).countP isAtomLine) := by
  have h : (validateStructure content).info.atoms = some (runScan content).atoms := rfl
  rw [h, runScan_atoms]

lemma validateStructure_info_hetAtoms (content : List Char) :
    (validateStructure content).info.hetAtoms =
      some ((splitLines content).countP isHetLine) := by
  have h : (validateStructure content).info.hetAtoms = some (runScan content).hetAtoms := rfl
  rw [h, runScan_hetAtoms]

lemma validateStructure_info_chains (content : List Char) :
    (validateStructure content).info.chains =
      some ((splitLines content).filterMap chainKey).toFinset.card := by
  have h : (validateStructure content).info.chains = some (runScan content).chains.card := rfl
  rw [h, runScan_chains]

lemma validateStructure_info_residues (content : List Char) :
    (validateStructure content).info.residues =
      some ((splitLines content).filterMap resKey).toFinset.card := by
  have h : (validateStructure content).info.residues = some (runScan content).residues.card := rfl
  rw [h, runScan_residues]

/-- C1: for every input, the report is invalid exactly when both the
plain and the heteroatom coordinate counters are zero; in particular an
input with only heteroatom records (atom counter zero, heteroatom
counter positive) is valid. -/
theorem valid_iff_no_coordinate_counts (content : List Char) :
    ((validateStructure content).isValid = false ↔
      ((validateStructure content).info.atoms = some 0 ∧
        (validateStructure content).info.hetAtoms = some 0)) ∧
    (∀ h : Nat, (validateStructure content).info.atoms = some 0 →
      (validateStructure content).info.hetAtoms = some h → 0 < h →
      (validateStructure content).isValid = true) := by
  constructor
  · rw [validateStructure_info_atoms, validateStructure_info_hetAtoms,
      validateStructure_isValid_false_iff]
    simp only [Option.some.injEq]
    omega
  · intro h ha hh hpos
    rw [validateStructure_info_atoms] at ha
    rw [validateStructure_info_hetAtoms] at hh
    simp only [Option.some.injEq] at ha hh
    have hne : ¬((validateStructure content).isValid = false) := by
      rw [validateStructure_isValid_false_iff]
      omega
    cases hb : (validateStructure content).isValid
    · exact absurd hb hne
    · rfl

/-- C1 witness: a single `HETATM` line yields a valid report. -/
theorem valid_iff_no_coordinate_counts_witness :
    (validateStructure hetOnly).isValid = true :=
  (valid_iff_no_coordinate_counts hetOnly).2 1 (by decide) (by decide) (by decide)

/-- C2: the reported atom count is exactly the number of lines whose
trimmed content starts with `ATOM`, and the heteroatom count exactly the
number of lines whose trimmed content starts with `HETATM`
(case-sensitive matching, by definition of `startsWithL`). -/
theorem counts_are_keyword_line_counts (content : List Char) :
    (validateStructure content).info.atoms =
      some ((splitLines content).countP isAtomLine) ∧
    (validateStructure content).info.hetAtoms =
      some ((splitLines content).countP isHetLine) :=
  ⟨validateStructure_info_atoms content, validateStructure_info_hetAtoms content⟩

/-- C3 counterexample: the single line of `cx3` has raw length 78 (so
the claim, which tests the length of the input line, forbids a warning),
yet the code emits the incompleteness warning for line 1, because the
length it tests is that of the trimmed line (4 here). -/
theorem warning_despite_raw_length_78 :
    splitLines cx3 = [cx3] ∧ cx3.length = 78 ∧ isAtomLine cx3 = true ∧
    (validateStructure cx3).warnings = [warnMsg 1] := by decide

/-- C3 (amended): for every line whose trimmed content starts with
`ATOM`, the incompleteness warning for that line (referencing its
1-based index) is emitted exactly once when the TRIMMED line length is
under 78, and not at all when the trimmed length is at least 78. -/
theorem warning_iff_short_trimmed_atom_line (content : List Char) (i : Nat)
    (hi : i < (splitLines content).length)
    (ha : isAtomLine ((splitLines content).getD i []) = true) :
    ((jsTrim ((splitLines content).getD i [])).length < 78 →
      ((validateStructure content).warnings).count (warnMsg (i + 1)) = 1) ∧
    (78 ≤ (jsTrim ((splitLines content).getD i [])).length →
      ((validateStructure content).warnings).count (warnMsg (i + 1)) = 0) := by
  rw [validateStructure_warnings]
  have hmain := warnList_count_main (splitLines content) 0 i
  simp only [Nat.zero_add] at hmain
  constructor
  · intro hlt
    have hs : isShortAtom ((splitLines content).getD i []) = true := by
      unfold isShortAtom
      rw [ha]
      simp only [Bool.true_and, decide_eq_true_eq]
      exact hlt
    rw [hmain, if_pos ⟨hi, hs⟩]
  · intro hge
    have hs : isShortAtom ((splitLines content).getD i []) = false := by
      unfold isShortAtom
      rw [ha]
      simp only [Bool.true_and, decide_eq_false_iff_not]
      omega
    have hne : ¬(i < (splitLines content).length ∧
        isShortAtom ((splitLines content).getD i []) = true) := by
      rintro ⟨-, hcon⟩
      rw [hs] at hcon
      exact Bool.false_ne_true hcon
    rw [hmain, if_neg hne]

/-- C3 witness: the single short line `ATOM` receives exactly one
warning citing line 1. -/
theorem warning_iff_short_trimmed_atom_line_witness :
    ((validateStructure kwATOM).warnings).count (warnMsg 1) = 1 :=
  (warning_iff_short_trimmed_atom_line kwATOM 0 (by decide) (by decide)).1 (by decide)

/-- C4 counterexample: `cx4` has two distinct observed (residue-name,
residue-number, chain) triples, but the reported residue count is 1,
because the implementation keys the residue set by the concatenated
string `resName ++ resNum ++ chain`. -/
theorem residue_triples_collide :
    ((splitLines cx4).filterMap specTripleOf).toFinset.card = 2 ∧
    (validateStructure cx4).info.residues = some 1 ∧
    ¬((validateStructure cx4).info.residues =
        some ((splitLines cx4).filterMap specTripleOf).toFinset.card) := by decide

lemma filterMap_dup_toFinset (f : List Char → Option (List Char))
    (pre post : List (List Char)) (l : List Char) :
    ((pre ++ l :: l :: post).filterMap f).toFinset =
      ((pre ++ l :: post).filterMap f).toFinset := by
  cases h : f l <;>
    simp [List.filterMap_append, List.filterMap_cons, h, List.toFinset_append]

/-- C4 (amended): the reported residue count is the number of DISTINCT
CONCATENATED `resName ++ resNum ++ chain` keys observed (distinct
triples may collide after concatenation), the chain count is the number
of distinct non-empty chain identifiers observed, and duplicating a
line never changes either count. -/
theorem distinct_key_counts_and_idempotence :
    (∀ content : List Char,
      (validateStructure content).info.residues =
        some ((splitLines content).filterMap resKey).toFinset.card ∧
      (validateStructure content).info.chains =
        some ((splitLines content).filterMap chainKey).toFinset.card) ∧
    (∀ (content1 content2 : List Char) (pre post : List (List Char)) (l : List Char),
      splitLines content1 = pre ++ l :: post →
      splitLines content2 = pre ++ l :: l :: post →
      (validateStructure content2).info.chains = (validateStructure content1).info.chains ∧
      (validateStructure content2).info.residues = (validateStructure content1).info.residues) := by
  constructor
  · intro content
    exact ⟨validateStructure_info_residues content, validateStructure_info_chains content⟩
  · intro content1 content2 pre post l h1 h2
    constructor
    · rw [validateStructure_info_chains, validateStructure_info_chains, h1, h2,
        filterMap_dup_toFinset]
    · rw [validateStructure_info_residues, validateStructure_info_residues, h1, h2,
        filterMap_dup_toFinset]

/-- C4 witness: duplicating the line `lineA` changes neither the chain
count nor the residue count. -/
theorem distinct_key_counts_and_idempotence_witness :
    (validateStructure dupA).info.chains = (validateStructure lineA).info.chains ∧
    (validateStructure dupA).info.residues = (validateStructure lineA).info.residues :=
  distinct_key_counts_and_idempotence.2 lineA dupA [] [] lineA (by decide) (by decide)

/-- C5 counterexample: the untrimmed line has length 22 and a non-empty
chain character `Z` in untrimmed columns 21 to 22, so under the claim the
extraction would run and record chain `Z` (chain count 1); the code
extracts nothing because it tests and slices the TRIMMED line, whose
length is only 21, so the reported chain count is 0. -/
theorem untrimmed_extraction_refuted :
    splitLines cx5 = [cx5] ∧ cx5.length = 22 ∧ isCoordLine cx5 = true ∧
    jsTrim (jsSubstring cx5 21 22) = ['Z'] ∧
    (validateStructure cx5).info.chains = some 0 := by decide

/-- C5 (amended): the chain identifier, residue name and residue number
are the fixed-column substrings 21 to 22, 17 to 20 and 22 to 26 of the
TRIMMED line, extracted exactly when the TRIMMED line length is at least
22 (see `chainKey` and `resKey`). -/
theorem extraction_on_trimmed_line (content : List Char) :
    (runScan content).chains = ((splitLines content).filterMap chainKey).toFinset ∧
    (runScan content).residues = ((splitLines content).filterMap resKey).toFinset :=
  ⟨runScan_chains content, runScan_residues content⟩

/-- C6: when no line (trimmed) starts with either keyword, the report is
invalid, the error list is exactly the two messages in order, and all
four counts are zero. -/
theorem no_coordinate_records_report (content : List Char)
    (h : ∀ l ∈ splitLines content, isCoordLine l = false) :
    (validateStructure content).isValid = false ∧
    (validateStructure content).errors = [noAtomRecordsMsg, noCoordsMsg] ∧
    (validateStructure content).errors.length = 2 ∧
    (validateStructure content).info.atoms = some 0 ∧
    (validateStructure content).info.hetAtoms = some 0 ∧
    (validateStructure content).info.chains = some 0 ∧
    (validateStructure content).info.residues = some 0 := by
  have hA : (splitLines content).countP isAtomLine = 0 := by
    refine List.countP_eq_zero.mpr ?_
    intro l hl ha
    have hc := atom_coord l ha
    rw [h l hl] at hc
    simp at hc
  have hH : (splitLines content).countP isHetLine = 0 := by
    refine List.countP_eq_zero.mpr ?_
    intro l hl hb
    have hc := het_coord l hb
    rw [h l hl] at hc
    simp at hc
  have hAny : (splitLines content).any isCoordLine = false := by
    refine List.any_eq_false.mpr ?_
    intro l hl
    rw [h l hl]
    simp
  have hCh : (splitLines content).filterMap chainKey = [] := by
    refine List.filterMap_eq_nil_iff.mpr ?_
    intro l hl
    simp [chainKey, h l hl]
  have hRs : (splitLines content).filterMap resKey = [] := by
    refine List.filterMap_eq_nil_iff.mpr ?_
    intro l hl
    simp [resKey, h l hl]
  refine ⟨?_, ?_, ?_, ?_, ?_, ?_, ?_⟩
  · rw [validateStructure_isValid_false_iff]
    omega
  · rw [validateStructure_errors]
    simp [hAny, hA, hH]
  · rw [validateStructure_errors]
    simp [hAny, hA, hH]
  · rw [validateStructure_info_atoms, hA]
  · rw [validateStructure_info_hetAtoms, hH]
  · rw [validateStructure_info_chains, hCh]
    simp
  · rw [validateStructure_info_residues, hRs]
    simp

/-- C6 witness: the empty string yields the invalid report with both
error messages in order and all four counts zero. -/
theorem no_coordinate_records_report_witness :
    (validateStructure []).isValid = false ∧
    (validateStructure []).errors = [noAtomRecordsMsg, noCoordsMsg] ∧
    (validateStructure []).errors.length = 2 ∧
    (validateStructure []).info.atoms = some 0 ∧
    (validateStructure []).info.hetAtoms = some 0 ∧
    (validateStructure []).info.chains = some 0 ∧
    (validateStructure []).info.residues = some 0 :=
  no_coordinate_records_report [] (by decide)

/-- C7 counterexample: the report attached to a `.pdf` candidate is
trivially valid (true, no errors, no warnings) but its `info` object is
empty, so `atoms` is ABSENT rather than equal to zero; likewise the
other three counts. -/
theorem passthrough_counts_absent :
    getFileExtension pdfCand.name = ".pdf".data ∧
    (ingestRecord 0 0 pdfCand).validation.isValid = true ∧
    (ingestRecord 0 0 pdfCand).validation.errors = [] ∧
    (ingestRecord 0 0 pdfCand).validation.warnings = [] ∧
    ¬((ingestRecord 0 0 pdfCand).validation.info.atoms = some 0) ∧
    (ingestRecord 0 0 pdfCand).validation.info.atoms = none := by decide

/-- C7 (amended): ingestion of a `.pdf` candidate skips the validator
(no validation event is emitted, and the attached report does not depend
on the content), attaching the trivially-valid report with empty `info`
(no counts present). -/
theorem passthrough_skips_validator (fid : ℚ) (now : Nat) (c : Candidate)
    (files : List FileObj) (h : getFileExtension c.name = ".pdf".data) :
    (ingestRecord fid now c).validation = trivialValidation ∧
    (processFile fid now c files).1 = files ++ [ingestRecord fid now c] ∧
    (processFile fid now c files).2 = [IngestEvent.decoded c.name] := by
  have ht : isTextBased c.name = false := by
    unfold isTextBased passthroughExts
    rw [h]
    decide
  refine ⟨?_, rfl, ?_⟩
  · have hv : (ingestRecord fid now c).validation =
        if isTextBased c.name then validateStructure c.data else trivialValidation := rfl
    rw [hv, ht]
    simp
  · have he : (processFile fid now c files).2 =
        IngestEvent.decoded c.name ::
          (if isTextBased c.name then [IngestEvent.validated c.name] else []) := rfl
    rw [he, ht]
    simp

/-- C7 witness: the concrete `.pdf` candidate gets the trivial report
and only a decode event. -/
theorem passthrough_skips_validator_witness :
    (ingestRecord 0 0 pdfCand).validation = trivialValidation ∧
    (processFile 0 0 pdfCand []).1 = [] ++ [ingestRecord 0 0 pdfCand] ∧
    (processFile 0 0 pdfCand []).2 = [IngestEvent.decoded pdfCand.name] :=
  passthrough_skips_validator 0 0 pdfCand [] (by decide)

/-- C8: a candidate rejected by a gate (extension not allowed, or size
over the 50 MiB ceiling) fails `validateFile`; a candidate failing
`validateFile` is never decoded or validated (no events), contributes
nothing to the batch, and leaves the registry unchanged. -/
theorem rejected_candidate_no_effect (ids : Nat → ℚ) (times : Nat → Nat)
    (pre post : List Candidate) (c : Candidate) (files : List FileObj) :
    ((getFileExtension c.name ∉ allowedTypes ∨ maxFileSize < c.size) →
      validateFile c = false) ∧
    (validateFile c = false →
      handleFiles ids times (pre ++ c :: post) files =
        handleFiles ids times (pre ++ post) files ∧
      handleFiles ids times [c] files = (files, [])) := by
  constructor
  · intro h
    unfold validateFile
    rcases h with h | h
    · rw [if_pos h]
    · by_cases he : getFileExtension c.name ∈ allowedTypes
      · rw [if_neg (not_not_intro he), if_pos h]
      · rw [if_pos he]
  · intro h
    constructor
    · have hf : List.filter validateFile (pre ++ c :: post) =
          List.filter validateFile (pre ++ post) := by
        simp [List.filter_append, List.filter_cons, h]
      unfold handleFiles
      rw [hf]
    · have hf : List.filter validateFile [c] = [] := by
        simp [List.filter_cons, h]
      unfold handleFiles
      rw [hf]
      rfl

/-- C8 witness: a `.txt` candidate and an oversized `.pdb` candidate
each produce no events and leave the registry unchanged. -/
theorem rejected_candidate_no_effect_witness :
    handleFiles idsZero timesZero [txtCand] [] = ([], []) ∧
    handleFiles idsZero timesZero [bigCand] [] = ([], []) :=
  ⟨((rejected_candidate_no_effect idsZero timesZero [] [] txtCand []).2
      ((rejected_candidate_no_effect idsZero timesZero [] [] txtCand []).1
        (Or.inl (by decide)))).2,
    ((rejected_candidate_no_effect idsZero timesZero [] [] bigCand []).2
      ((rejected_candidate_no_effect idsZero timesZero [] [] bigCand []).1
        (Or.inr (by decide)))).2⟩

lemma removeFile_no_match (files : List FileObj) (fileId : JSVal)
    (h : ∀ f ∈ files, jsStrictEq f.id fileId = false) :
    removeFile fileId files = files := by
  unfold removeFile
  refine List.filter_eq_self.mpr ?_
  intro f hf
  rw [h f hf]
  rfl

/-- C9: removing an id that matches no record (under the strict
equality used by the filter) leaves the registry unchanged; the
operation is total, so nothing is thrown. -/
theorem remove_absent_id_noop (files : List FileObj) (fileId : JSVal)
    (h : ∀ f ∈ files, jsStrictEq f.id fileId = false) :
    removeFile fileId files = files :=
  removeFile_no_match files fileId h

/-- C9 witness: removing the absent id 2 from a one-record registry is
a no-op. -/
theorem remove_absent_id_noop_witness :
    removeFile (JSVal.num 2) regOne = regOne :=
  remove_absent_id_noop regOne (JSVal.num 2) (by decide)

/-- C10: in a registry whose ids are all the numbers assigned at
creation, `removeFile` called with a string rendering of a present id
removes nothing (strict inequality never matches a number against a
string), while the `find`-based lookup used by `previewFile` and
`visualizeFile` does locate the record via loose equality. -/
theorem string_id_remove_vs_find (files : List FileObj) (x : ℚ) (s : List Char)
    (hids : ∀ f ∈ files, ∃ q : ℚ, f.id = JSVal.num q)
    (hs : strToNumber s = some x)
    (hmem : ∃ f ∈ files, f.id = JSVal.num x) :
    removeFile (JSVal.str s) files = files ∧
    ∃ f, findFile (JSVal.str s) files = some f ∧ f.id = JSVal.num x := by
  constructor
  · refine removeFile_no_match files _ ?_
    intro f hf
    obtain ⟨q, hq⟩ := hids f hf
    rw [hq]
    rfl
  · obtain ⟨f0, hf0, hid0⟩ := hmem
    have hp0 : jsLooseEq f0.id (JSVal.str s) = true := by
      rw [hid0]
      simp [jsLooseEq, hs]
    have hsome : (findFile (JSVal.str s) files).isSome := by
      unfold findFile
      rw [List.find?_isSome]
      exact ⟨f0, hf0, hp0⟩
    obtain ⟨f, hf⟩ := Option.isSome_iff_exists.mp hsome
    have hf2 : List.find? (fun f => jsLooseEq f.id (JSVal.str s)) files = some f := hf
    have hpf : jsLooseEq f.id (JSVal.str s) = true := by
      have hp := List.find?_some hf2
      simpa using hp
    have hmemf : f ∈ files := List.mem_of_find?_eq_some hf2
    obtain ⟨q, hq⟩ := hids f hmemf
    rw [hq] at hpf
    simp only [jsLooseEq, hs, decide_eq_true_eq] at hpf
    exact ⟨f, hf, by rw [hq, hpf]⟩

/-- C10 witness: with id 7 stored as a number, removal by the string
`7` is a no-op while the loose-equality lookup finds the record. -/
theorem string_id_remove_vs_find_witness :
    removeFile (JSVal.str sevenStr) regSeven = regSeven ∧
    ∃ f, findFile (JSVal.str sevenStr) regSeven = some f ∧ f.id = JSVal.num 7 :=
  string_id_remove_vs_find regSeven 7 sevenStr
    (by
      intro f hf
      simp only [regSeven, List.mem_singleton] at hf
      exact ⟨7, by rw [hf]; rfl⟩)
    (by decide)
    ⟨ingestRecord 7 0 pdbCand, by simp [regSeven], rfl⟩


end Wbe
